import Mathlib

/-!
Shallow embedding of the cortex-hybrid-architecture repository (JavaScript) in Lean 4.

The embedding follows the source files:

* `src/core/L0Bootstrap.js`  — the Reference Catalog plus Access Tracker (`L0State` and the
  functions in the `L0` namespace);
* `src/core/L1Repository.js` — the Backing Store Client (`L1State` and the `L1` namespace);
* `src/core/CortexManager.js` — the Tiered Orchestrator (`CortexState`, `Cortex.getEntity`).

Modelling conventions:

* JavaScript ISO-8601 timestamp strings are modelled as `Int` milliseconds (the code only ever
  compares timestamp differences, computed via `Date.getTime()`, and stores them verbatim).
* JavaScript floating point arithmetic on latencies/averages is modelled over `ℚ`; the metric
  quantities involved are small enough that double rounding never crosses any of the comparison
  thresholds appearing in the code.
* `throw`/`try`/`catch` is modelled with `Except`: every function that can throw returns an
  `Except CErr` result paired with the post-state.  The `CErr` constructors correspond one to
  one to the `throw new Error(...)` sites of the source (the doc comment of `CErr` maps them).
* The external backing collaborator (a Git repository reached over the network; the source holds
  a placeholder simulation with fake latency) is modelled as an explicit outcome parameter fed
  to `L1.getEntity` / `L1.storeEntity`, as §6 of the specification treats it: an interface
  returning either a full entity or a failure.
* `JSON.stringify` based byte accounting is reproduced by `jsonOfEntity`; read-only metric
  snapshot aggregators (`getSize`, `getMetrics`, `getPerformanceMetrics`,
  `getAccessPatternStats`, `calculateMetrics`) are illustrative derived figures (spec §4.6) that
  no claim concerns and are not modelled.
-/

/-- Domain record from §3 of the specification and `validateEntitySchema` in
`L1Repository.js`: `name`, `entityType`, ordered `observations`, free-form `metadata`
(modelled as an association list). -/
structure Entity where
  name : String
  entityType : String
  observations : List String
  metadata : List (String × String)
deriving DecidableEq, Repr

/-- Error taxonomy; each constructor stands for one `throw new Error(...)` site of the source:

* `cortexNotInitialized` — `CortexManager.getEntity`, message starting `Cortex not initialized`;
* `l0NotInitialized` — `L0Bootstrap.getLightweightReference` / `createLightweightReference`;
* `entityNotFound name` — `CortexManager.getEntity`, message `Entity ... not found in L0 Bootstrap`;
* `l1NotConnected` — `L1Repository.getEntity` / `storeEntity`, `L1 Repository not connected`;
* `invalidName`, `invalidEntityType`, `invalidObservations` — `validateEntitySchema`;
* `external tag` — a failure reported by the external backing collaborator (not-found / storage);
* `l1LoadFailed inner` — the re-throw wrapper `Failed to load entity from L1: ...`;
* `l1StoreFailed inner` — the re-throw wrapper `Failed to store entity in L1: ...`. -/
inductive CErr where
  | cortexNotInitialized
  | l0NotInitialized
  | entityNotFound (entityName : String)
  | l1NotConnected
  | invalidName
  | invalidEntityType
  | invalidObservations
  | external (tag : String)
  | l1LoadFailed (inner : CErr)
  | l1StoreFailed (inner : CErr)
deriving DecidableEq, Repr

/-- `L1Repository.validateEntitySchema`: `name` and `entityType` must be truthy strings (for a
typed `String` field, truthy means non-empty); `observations` must be an array (always true in
the typed model, recorded here for completeness of the translation). -/
def validateEntitySchema (e : Entity) : Except CErr Unit :=
  if e.name = "" then .error .invalidName
  else if e.entityType = "" then .error .invalidEntityType
  else .ok ()

/-- Association-list update standing for JavaScript `Map.prototype.set`: at most one binding per
key survives (so list length equals `Map.size`); only `lookup` and the size are ever observed. -/
def mset {α : Type} (m : List (String × α)) (k : String) (v : α) : List (String × α) :=
  (k, v) :: m.filter (fun p => p.1 != k)

/-- Does `pat` occur at the head of `l` (character-wise)? Helper for `String.includes`. -/
def headMatch : List Char → List Char → Bool
  | [], _ => true
  | _ :: _, [] => false
  | a :: as, b :: bs => a == b && headMatch as bs

/-- Does `pat` occur as a contiguous sublist of `l`? Helper for `String.includes`. -/
def subSearch (pat : List Char) : List Char → Bool
  | [] => pat.isEmpty
  | c :: rest => headMatch pat (c :: rest) || subSearch pat rest

/-- JavaScript `hay.includes(needle)` on strings. -/
def includesStr (hay needle : String) : Bool :=
  subSearch needle.toList hay.toList

/-- Minimal `JSON.stringify` string escaping (quote and backslash; other escapes do not occur in
the data any claim touches). -/
def jsEscape (s : String) : String :=
  s.toList.foldl
    (fun acc c =>
      if c = '"' then acc ++ "\\\""
      else if c = '\\' then acc ++ "\\\\"
      else acc.push c) ""

/-- A JSON string literal. -/
def jsonStr (s : String) : String := "\"" ++ jsEscape s ++ "\""

/-- A JSON array of strings. -/
def jsonArr (xs : List String) : String :=
  "[" ++ String.intercalate "," (xs.map jsonStr) ++ "]"

/-- A JSON object given already-rendered field values. -/
def jsonObj (fields : List (String × String)) : String :=
  "\x7b" ++ String.intercalate "," (fields.map (fun p => jsonStr p.1 ++ ":" ++ p.2)) ++ "\x7d"

/-- `JSON.stringify` of a full entity, with the field order of the object literals appearing in
the source. -/
def jsonOfEntity (e : Entity) : String :=
  jsonObj [("name", jsonStr e.name), ("entityType", jsonStr e.entityType),
    ("observations", jsonArr e.observations),
    ("metadata", jsonObj (e.metadata.map (fun p => (p.1, jsonStr p.2))))]

/-- JavaScript `Math.round(x * 10) / 10` rendered through a template literal: an integer number
of tenths `d` prints as `d/10` when the tenths digit is zero and with one decimal otherwise. -/
def renderTenths (d : Int) : String :=
  if d % 10 = 0 then toString (d / 10)
  else toString (d / 10) ++ "." ++ toString (d % 10)

/-- `L0Bootstrap.calculateSize`: serialized byte length, rendered `"<n>B"` when at most 1024
bytes, else `"<n.n>KB"` (one decimal, `Math.round` half-up). -/
def calculateSize (e : Entity) : String :=
  let sizeBytes := (jsonOfEntity e).length
  if sizeBytes > 1024 then
    renderTenths (round ((sizeBytes : ℚ) / 1024 * 10)) ++ "KB"
  else
    toString sizeBytes ++ "B"

/-- `L0Bootstrap.generateSummary`: first observation truncated to 100 characters with a trailing
ellipsis marker when longer; `"<entityType> entity"` when there are no observations. -/
def generateSummary (e : Entity) : String :=
  match e.observations with
  | [] => e.entityType ++ " entity"
  | firstObs :: _ =>
    (firstObs.take 100) ++ (if firstObs.length > 100 then "..." else "")

/-- `L0Bootstrap.calculatePriority`: `critical` for entity type `System_Bootstrap_Protocol`,
else by observation count (`> 10` high, `> 5` medium, otherwise low). -/
def calculatePriority (e : Entity) : String :=
  if e.entityType = "System_Bootstrap_Protocol" then "critical"
  else if e.observations.length > 10 then "high"
  else if e.observations.length > 5 then "medium"
  else "low"

/-- The `for (const obs of observations)` loop of `L0Bootstrap.extractEvidenceQuality`: inside
each observation test for the substring `T1`, then `T2`, then `T3`; the first observation
containing any marker decides the tier; default `T3`. -/
def evidenceScan : List String → String
  | [] => "T3"
  | obs :: rest =>
    if includesStr obs "T1" then "T1"
    else if includesStr obs "T2" then "T2"
    else if includesStr obs "T3" then "T3"
    else evidenceScan rest

/-- `L0Bootstrap.extractEvidenceQuality`: scan the observations with `evidenceScan`. -/
def extractEvidenceQuality (e : Entity) : String :=
  evidenceScan e.observations

/-- Which tier marker decides a single observation in the `extractEvidenceQuality` loop
(`none` when the observation contains no marker).  Statement-side helper for the theorems. -/
def tierOf (obs : String) : Option String :=
  if includesStr obs "T1" then some "T1"
  else if includesStr obs "T2" then some "T2"
  else if includesStr obs "T3" then some "T3"
  else none

/-- `L0Bootstrap.calculateAccessFrequency`: bucket the elapsed milliseconds since the previous
access (`hoursDiff = timeDiff / 3600000` compared against 1, 24 and 168 hours); `new` when there
was no previous access. -/
def calculateAccessFrequency (lastAccess : Option Int) (now : Int) : String :=
  match lastAccess with
  | none => "new"
  | some prev =>
    let timeDiff := now - prev
    if timeDiff < 3600000 then "very-high"
    else if timeDiff < 86400000 then "high"
    else if timeDiff < 604800000 then "medium"
    else "low"

/-- Per-entity access pattern record kept in `L0Bootstrap.accessPatterns`.  The JavaScript
default `{ count: 0, lastAccess: null }` carries no `frequency` field; since the code never
reads the field of the default, the model gives it `"new"`. -/
structure AccessRecord where
  count : Nat
  lastAccess : Option Int
  frequency : String
deriving DecidableEq, Repr

/-- The default access record `{ count: 0, lastAccess: null }`. -/
def AccessRecord.dflt : AccessRecord := ⟨0, none, "new"⟩

/-- A catalog entry, `lightweightRef` in `L0Bootstrap.createLightweightReference`.  The sample
reference loaded at startup carries no `transferredAt`, hence the `Option`. -/
structure LightweightRef where
  entityName : String
  fileReference : String
  summary : String
  priority : String
  size : String
  evidenceQuality : String
  createdAt : Int
  lastAccessed : Int
  accessCount : Nat
  transferredAt : Option Int
deriving DecidableEq, Repr

/-- The object returned by `L0Bootstrap.getLightweightReference` (the eight fields listed
there). -/
structure RefView where
  entityName : String
  fileReference : String
  summary : String
  priority : String
  size : String
  evidenceQuality : String
  lastAccessed : Int
  accessCount : Nat
deriving DecidableEq, Repr

/-- Project a catalog entry to the view `getLightweightReference` returns. -/
def LightweightRef.toView (r : LightweightRef) : RefView :=
  ⟨r.entityName, r.fileReference, r.summary, r.priority, r.size, r.evidenceQuality,
    r.lastAccessed, r.accessCount⟩

/-- State owned by `L0Bootstrap`: the reference catalog, the access tracker and the two metric
counters claims touch (`metrics.accessCount`, `metrics.entitiesTransferred`). -/
structure L0State where
  lightweightReferences : List (String × LightweightRef)
  accessPatterns : List (String × AccessRecord)
  initialized : Bool
  accessCountMetric : Nat
  entitiesTransferred : Nat
deriving DecidableEq, Repr

/-- The state built by the `L0Bootstrap` constructor. -/
def L0.fresh : L0State := ⟨[], [], false, 0, 0⟩

/-- `L0Bootstrap.recordAccess`: read the current record (or the default), store back an
incremented count, the current time and the frequency class computed from the PREVIOUS record,
and bump the `accessCount` metric. -/
def L0.recordAccess (entityName : String) (now : Int) (st : L0State) : L0State :=
  let current := (st.accessPatterns.lookup entityName).getD AccessRecord.dflt
  { st with
    accessPatterns := mset st.accessPatterns entityName
      ⟨current.count + 1, some now, calculateAccessFrequency current.lastAccess now⟩,
    accessCountMetric := st.accessCountMetric + 1 }

/-- `L0Bootstrap.getLightweightReference`: guard on initialization, record the access pattern,
then look the name up; on a hit update the entry's `lastAccessed`/`accessCount` in place and
return the eight-field view, on a miss return `null` (here `none`). -/
def L0.getLightweightReference (entityName : String) (now : Int) (st : L0State) :
    Except CErr (Option RefView) × L0State :=
  if !st.initialized then (.error .l0NotInitialized, st)
  else
    let st1 := L0.recordAccess entityName now st
    match st1.lightweightReferences.lookup entityName with
    | none => (.ok none, st1)
    | some reference =>
      let ref' := { reference with lastAccessed := now, accessCount := reference.accessCount + 1 }
      (.ok (some ref'.toView),
        { st1 with lightweightReferences := mset st1.lightweightReferences entityName ref' })

/-- `L0Bootstrap.createLightweightReference`: guard on initialization, derive the catalog entry
from the full entity, store it under the entity name and bump `metrics.entitiesTransferred`. -/
def L0.createLightweightReference (entityName : String) (fullEntity : Entity)
    (fileReference : String) (now : Int) (st : L0State) : Except CErr LightweightRef × L0State :=
  if !st.initialized then (.error .l0NotInitialized, st)
  else
    let ref : LightweightRef :=
      { entityName := entityName
        fileReference := fileReference
        summary := generateSummary fullEntity
        priority := calculatePriority fullEntity
        size := calculateSize fullEntity
        evidenceQuality := extractEvidenceQuality fullEntity
        createdAt := now
        lastAccessed := now
        accessCount := 0
        transferredAt := some now }
    (.ok ref,
      { st with lightweightReferences := mset st.lightweightReferences entityName ref,
                entitiesTransferred := st.entitiesTransferred + 1 })

/-- The sample reference that `L0Bootstrap.loadLightweightReferences` seeds ("Simulate loading
some references for demonstration"), with the `createdAt`/`lastAccessed`/`accessCount` fields
the `forEach` adds. -/
def sampleReference (now : Int) : LightweightRef :=
  { entityName := "Cortex_Access_Protocol_v3_0"
    fileReference := "cortex/entities/cortex_access_protocol_v3_0.json"
    summary := "Revolutionary AGI Memory Bootstrap Protocol"
    priority := "critical"
    size := "2.1KB"
    evidenceQuality := "T1"
    createdAt := now
    lastAccessed := now
    accessCount := 0
    transferredAt := none }

/-- `L0Bootstrap.initialize`: `loadLightweightReferences` (which, with no durable store present,
seeds the single demonstration sample reference), `initializeAccessPatterns` (a no-op beyond
logging) and set the initialized flag.  The illustrative `calculateMetrics` figures
(`memoryReduction`, `compressionRatio`, spec §4.6) are not modelled; no claim concerns them. -/
def L0.initProtocol (now : Int) (st : L0State) : L0State :=
  { st with
    lightweightReferences :=
      mset st.lightweightReferences "Cortex_Access_Protocol_v3_0" (sampleReference now),
    initialized := true }

deriving instance DecidableEq for Except

/-- Modelled from the spec: the Bounded Cache of §4.4.  The source file
`src/cache/LRUCache.js` is not part of the given sources (only its construction and call sites
in `CortexManager.js` are), so the cache is taken from the specification's words: fixed capacity
`C` set at construction; `get` returns the value and promotes the key to most-recently-used;
`set` inserts/overwrites, promotes, and when the insertion pushes the size above `C` evicts the
least-recently-used entry (ties broken by insertion order); `has` tests membership without
promotion.  Entries are kept most-recently-used first, so the least-recently-used entry (with
the insertion-order tie-break) is the last one. -/
structure LRUCache (α : Type) where
  capacity : Nat
  entries : List (String × α)
deriving DecidableEq, Repr

/-- An empty bounded cache of the given capacity. -/
def LRUCache.empty (α : Type) (capacity : Nat) : LRUCache α := ⟨capacity, []⟩

/-- Membership test without promotion. -/
def LRUCache.has {α : Type} (c : LRUCache α) (k : String) : Bool :=
  c.entries.any (fun p => p.1 == k)

/-- Lookup with promotion to most-recently-used on a hit. -/
def LRUCache.get {α : Type} (c : LRUCache α) (k : String) : Option α × LRUCache α :=
  match c.entries.lookup k with
  | none => (none, c)
  | some v => (some v, ⟨c.capacity, (k, v) :: c.entries.filter (fun p => p.1 != k)⟩)

/-- Insert/overwrite, promote to most-recently-used, and evict the least-recently-used entry
when the insertion pushed the size above the capacity. -/
def LRUCache.set {α : Type} (c : LRUCache α) (k : String) (v : α) : LRUCache α :=
  let es := (k, v) :: c.entries.filter (fun p => p.1 != k)
  ⟨c.capacity, if c.capacity < es.length then es.dropLast else es⟩

/-- One client operation against the Bounded Cache, for stating cache invariants. -/
inductive CacheOp (α : Type) where
  | oget (k : String)
  | oset (k : String) (v : α)
  | ohas (k : String)
deriving DecidableEq, Repr

/-- The state transition of one cache operation (returned values discarded; `has` does not
touch the state). -/
def stepCache {α : Type} (c : LRUCache α) : CacheOp α → LRUCache α
  | .oget k => (LRUCache.get c k).2
  | .oset k v => LRUCache.set c k v
  | .ohas _ => c

/-- State owned by `L1Repository`: connection flag, the internal per-locator entity cache and
the `connectionMetrics` counters. -/
structure L1State where
  connected : Bool
  entityCache : List (String × Entity)
  totalRequests : Nat
  successfulRequests : Nat
  failedRequests : Nat
  averageResponseTime : ℚ
  lastConnectionTime : Option Int
deriving DecidableEq, Repr

/-- The state built by the `L1Repository` constructor. -/
def L1.fresh : L1State := ⟨false, [], 0, 0, 0, 0, none⟩

/-- Number of completed requests: `successfulRequests + failedRequests`, the `totalRequests`
local of `L1Repository.updateMetrics`. -/
def L1.completed (st : L1State) : Nat :=
  st.successfulRequests + st.failedRequests

/-- `L1Repository.updateMetrics`: classify the completed request as a success or a failure,
then update the running average response time incrementally over completed requests. -/
def L1.updateMetrics (responseTime : ℚ) (success : Bool) (st : L1State) : L1State :=
  let st1 :=
    if success then { st with successfulRequests := st.successfulRequests + 1 }
    else { st with failedRequests := st.failedRequests + 1 }
  let totalRequests : ℚ := (st1.successfulRequests + st1.failedRequests : Nat)
  { st1 with averageResponseTime :=
      (st1.averageResponseTime * (totalRequests - 1) + responseTime) / totalRequests }

/-- `L1Repository.generateFileReference` character step: after `toLowerCase`, every character
outside `[a-z0-9_]` becomes an underscore. -/
def sanitizeChar (c : Char) : Char :=
  let lc := c.toLower
  if (lc.isLower || lc.isDigit || lc = '_') then lc else '_'

/-- The `.replace(/_+/g, '_')` pass: collapse runs of underscores (`prev` records whether the
previous kept character was an underscore). -/
def collapseUnders (prev : Bool) : List Char → List Char
  | [] => []
  | c :: rest =>
    if c = '_' && prev then collapseUnders true rest
    else c :: collapseUnders (c = '_') rest

/-- The `.replace(/^_|_$/g, '')` pass: remove a single leading and a single trailing
underscore. -/
def stripEdgeUnders (l : List Char) : List Char :=
  let l1 := match l with
    | '_' :: t => t
    | other => other
  match l1.reverse with
  | '_' :: t => t.reverse
  | _ => l1

/-- `L1Repository.generateFileReference`: lowercase, replace path-unsafe characters, collapse
repeated underscores, strip a leading/trailing underscore, and place the result under the
configured base path (`cortex/entities`, the constructor default) with a `.json` suffix. -/
def generateFileReference (entityName : String) : String :=
  let sanitized :=
    String.mk (stripEdgeUnders (collapseUnders false (entityName.toList.map sanitizeChar)))
  "cortex/entities/" ++ sanitized ++ ".json"

/-- `L1Repository.processEntityForStorage`: spread the entity and overwrite its metadata with
`storedAt` (timestamp), `version` and `compression` (the `gzip` constructor default). -/
def processEntityForStorage (e : Entity) (now : Int) : Entity :=
  let md := mset (mset (mset e.metadata "storedAt" (toString now)) "version" "3.0.0")
    "compression" "gzip"
  { e with metadata := md }

/-- `L1Repository.calculateCompressionRatio`: `Math.round(original / compressed * 10) / 10`
over serialized byte lengths. -/
def calculateCompressionRatio (original compressed : Entity) : ℚ :=
  (round (((jsonOfEntity original).length : ℚ) / ((jsonOfEntity compressed).length : ℚ) * 10) : ℤ) / 10

/-- The success object returned by `L1Repository.storeEntity`. -/
structure StoreResult where
  fileReference : String
  size : Nat
  compressionRatio : ℚ
  responseTime : ℚ
deriving DecidableEq, Repr

/-- `L1Repository.connect`: the placeholder validation steps always succeed; the connection
flag is set, and `averageResponseTime` is overwritten with the connection latency
(`connectionMetrics.averageResponseTime = connectionTime`). -/
def L1.connect (connectionTime : ℚ) (now : Int) (st : L1State) : L1State :=
  { st with connected := true, averageResponseTime := connectionTime,
            lastConnectionTime := some now }

/-- `L1Repository.getEntity`: guard on connection (before any counter is touched), count the
attempt, serve from the internal per-locator cache when possible (completing no request), else
consult the external collaborator (`loadOutcome`), validate the schema, cache and record a
completed success — or record a completed failure and re-throw wrapped. -/
def L1.getEntity (fileReference : String) (loadOutcome : Except CErr Entity)
    (responseTime : ℚ) (st : L1State) : Except CErr Entity × L1State :=
  if !st.connected then (.error .l1NotConnected, st)
  else
    let st1 := { st with totalRequests := st.totalRequests + 1 }
    match st1.entityCache.lookup fileReference with
    | some cached => (.ok cached, st1)
    | none =>
      match loadOutcome with
      | .ok entity =>
        match validateEntitySchema entity with
        | .ok _ =>
          let st2 := { st1 with entityCache := mset st1.entityCache fileReference entity }
          (.ok entity, L1.updateMetrics responseTime true st2)
        | .error e => (.error (.l1LoadFailed e), L1.updateMetrics responseTime false st1)
      | .error e => (.error (.l1LoadFailed e), L1.updateMetrics responseTime false st1)

/-- `L1Repository.storeEntity`: guard on connection, count the attempt, derive the locator,
validate, process for storage, write through the external collaborator (`storeOutcome`), cache
the ORIGINAL entity under the locator and record a completed success — or record a completed
failure and re-throw wrapped. -/
def L1.storeEntity (entityName : String) (entityData : Entity)
    (storeOutcome : Except CErr Unit) (responseTime : ℚ) (now : Int) (st : L1State) :
    Except CErr StoreResult × L1State :=
  if !st.connected then (.error .l1NotConnected, st)
  else
    let st1 := { st with totalRequests := st.totalRequests + 1 }
    let fileReference := generateFileReference entityName
    match validateEntitySchema entityData with
    | .error e => (.error (.l1StoreFailed e), L1.updateMetrics responseTime false st1)
    | .ok _ =>
      let processedData := processEntityForStorage entityData now
      match storeOutcome with
      | .ok _ =>
        let st2 := { st1 with entityCache := mset st1.entityCache fileReference entityData }
        (.ok { fileReference := fileReference
               size := (jsonOfEntity processedData).length
               compressionRatio := calculateCompressionRatio entityData processedData
               responseTime := responseTime },
          L1.updateMetrics responseTime true st2)
      | .error e => (.error (.l1StoreFailed e), L1.updateMetrics responseTime false st1)

/-- One request-path operation against the Backing Store Client, for stating counter
invariants over operation sequences. -/
inductive L1Op where
  | oconnect (connectionTime : ℚ) (now : Int)
  | ofetch (fileReference : String) (loadOutcome : Except CErr Entity) (responseTime : ℚ)
  | ostore (entityName : String) (entityData : Entity) (storeOutcome : Except CErr Unit)
      (responseTime : ℚ) (now : Int)
deriving DecidableEq, Repr

/-- The state transition of one Backing Store Client operation (returned values discarded). -/
def L1.stepOp (st : L1State) : L1Op → L1State
  | .oconnect ct now => L1.connect ct now st
  | .ofetch f oc rt => (L1.getEntity f oc rt st).2
  | .ostore n e oc rt now => (L1.storeEntity n e oc rt now st).2

/-- Is this operation a fetch that the given (pre-operation) state serves from the client's
internal per-locator cache?  Such a request bumps `totalRequests` but completes neither as a
success nor as a failure. -/
def L1.servedFromCache (st : L1State) : L1Op → Bool
  | .ofetch f _ _ => st.connected && (st.entityCache.lookup f).isSome
  | _ => false

/-- State owned by `CortexManager`: the two layers, the bounded cache and the cache hit/miss
counters.  The counters live in `HealthMonitor` (`src/utils/HealthMonitor.js`, not among the
given sources); following spec §4.4/§4.5 they are plain counters incremented by the
orchestrator via `recordCacheHit` / `recordCacheMiss`. -/
structure CortexState where
  l0 : L0State
  l1 : L1State
  cache : LRUCache Entity
  cacheHits : Nat
  cacheMisses : Nat
  initialized : Bool
deriving DecidableEq, Repr

/-- The state built by the `CortexManager` constructor (`cacheSize` defaults to 100). -/
def Cortex.fresh (cacheSize : Nat) : CortexState :=
  ⟨L0.fresh, L1.fresh, LRUCache.empty Entity cacheSize, 0, 0, false⟩

/-- `CortexManager.initialize`: run the L0 bootstrap protocol, connect the L1 repository and
set the initialized flag.  The `EntityManager` setup and `HealthMonitor.start` phases concern
components outside the given sources and carry no state any claim touches. -/
def Cortex.initSystem (now : Int) (connectionTime : ℚ) (st : CortexState) : CortexState :=
  { st with l0 := L0.initProtocol now st.l0, l1 := L1.connect connectionTime now st.l1,
            initialized := true }

/-- `CortexManager.getEntity`: guard on initialization; resolve the lightweight reference
through L0 (failing with the not-found error when it is `null`); probe the bounded cache under
the key `entity:<name>` — on a hit record a cache hit and return the cached value; on a miss
lazy-load from L1 with the reference's locator, populate the cache and record a cache miss, or
propagate the failure untouched. -/
def Cortex.getEntity (entityName : String) (loadOutcome : Except CErr Entity)
    (responseTime : ℚ) (now : Int) (st : CortexState) : Except CErr Entity × CortexState :=
  if !st.initialized then (.error .cortexNotInitialized, st)
  else
    match L0.getLightweightReference entityName now st.l0 with
    | (.error e, l0') => (.error e, { st with l0 := l0' })
    | (.ok none, l0') => (.error (.entityNotFound entityName), { st with l0 := l0' })
    | (.ok (some lightweightRef), l0') =>
      let st1 := { st with l0 := l0' }
      let cacheKey := "entity:" ++ entityName
      if st1.cache.has cacheKey then
        match LRUCache.get st1.cache cacheKey with
        | (some v, cache') =>
          (.ok v, { st1 with cache := cache', cacheHits := st1.cacheHits + 1 })
        | (none, cache') =>
          -- unreachable: guarded by `has`, which implies the lookup succeeds
          (.error (.entityNotFound entityName),
            { st1 with cache := cache', cacheHits := st1.cacheHits + 1 })
      else
        match L1.getEntity lightweightRef.fileReference loadOutcome responseTime st1.l1 with
        | (.ok fullEntity, l1') =>
          (.ok fullEntity,
            { st1 with l1 := l1', cache := LRUCache.set st1.cache cacheKey fullEntity,
                       cacheMisses := st1.cacheMisses + 1 })
        | (.error e, l1') => (.error e, { st1 with l1 := l1' })

/-- Modelled from the spec: the Tiered Orchestrator's write path (§4.5, `putEntity` in §6).
The orchestration code (`EntityManager.js`) is not among the given sources; following the
specification's words, a write persists the body through the Backing Store Client
(`L1.storeEntity`, in the sources), then creates/updates the catalog reference with the
returned locator (`L0.createLightweightReference`, in the sources), then inserts the full
entity into the Bounded Cache keyed identically to the read path; a failure propagates without
mutating the catalog or the cache. -/
def Cortex.putEntity (entityName : String) (entityData : Entity)
    (storeOutcome : Except CErr Unit) (responseTime : ℚ) (now : Int) (st : CortexState) :
    Except CErr StoreResult × CortexState :=
  match L1.storeEntity entityName entityData storeOutcome responseTime now st.l1 with
  | (.error e, l1') => (.error e, { st with l1 := l1' })
  | (.ok res, l1') =>
    match L0.createLightweightReference entityName entityData res.fileReference now st.l0 with
    | (.error e, l0') => (.error e, { st with l1 := l1', l0 := l0' })
    | (.ok _, l0') =>
      (.ok res,
        { st with l1 := l1', l0 := l0',
                  cache := LRUCache.set st.cache ("entity:" ++ entityName) entityData })

/-- A freshly initialized system (time 0, connection latency 0, default cache size 100): the
concrete state several witnesses below run against. -/
def stInit : CortexState := Cortex.initSystem 0 0 (Cortex.fresh 100)

/-- The concrete entity several witnesses below write and read. -/
def alphaEntity : Entity := ⟨"Alpha", "Fact", ["o1"], []⟩

/-- Looking a key up right after `mset` for that key yields the stored value. -/
theorem lookup_mset_self {α : Type} (m : List (String × α)) (k : String) (v : α) :
    (mset m k v).lookup k = some v := by
  simp [mset, List.lookup_cons]

/-- `tierOf obs = none` says exactly that the observation contains none of the three tier
markers. -/
theorem tierOf_none_iff (obs : String) :
    tierOf obs = none ↔
      includesStr obs "T1" = false ∧ includesStr obs "T2" = false ∧
        includesStr obs "T3" = false := by
  unfold tierOf
  split_ifs with h1 h2 h3 <;> simp_all

/-- After a `set` into a cache of positive capacity, the entry just inserted sits at the
most-recently-used position (in particular it was not the one evicted). -/
theorem LRUCache.set_head {α : Type} (c : LRUCache α) (k : String) (v : α)
    (h : 1 ≤ c.capacity) : ∃ t, (LRUCache.set c k v).entries = (k, v) :: t := by
  have hdef : (LRUCache.set c k v).entries =
      if c.capacity < ((k, v) :: c.entries.filter (fun p => p.1 != k)).length
      then ((k, v) :: c.entries.filter (fun p => p.1 != k)).dropLast
      else (k, v) :: c.entries.filter (fun p => p.1 != k) := rfl
  rw [hdef]
  cases hf : c.entries.filter (fun p => p.1 != k) with
  | nil =>
    have hlen : ¬ c.capacity < ([(k, v)] : List (String × α)).length := by
      simp only [List.length_cons, List.length_nil]
      omega
    rw [if_neg hlen]
    exact ⟨[], rfl⟩
  | cons x xs =>
    by_cases hc : c.capacity < ((k, v) :: x :: xs).length
    · rw [if_pos hc]
      exact ⟨(x :: xs).dropLast, rfl⟩
    · rw [if_neg hc]
      exact ⟨x :: xs, rfl⟩

/-- A cache whose most-recently-used entry has key `k` answers `has k` positively. -/
theorem LRUCache.has_of_head {α : Type} {c : LRUCache α} {k : String} {v : α}
    {t : List (String × α)} (h : c.entries = (k, v) :: t) : c.has k = true := by
  simp [LRUCache.has, h]

/-- A cache whose most-recently-used entry is `(k, v)` answers `get k` with `v`. -/
theorem LRUCache.get_fst_of_head {α : Type} {c : LRUCache α} {k : String} {v : α}
    {t : List (String × α)} (h : c.entries = (k, v) :: t) : (LRUCache.get c k).1 = some v := by
  simp [LRUCache.get, h, List.lookup_cons]

/-- Claim C7: each `recordAccess` call stores, for the given entity, a record whose count is the
previous count plus one, whose last-access timestamp is the current time, and whose frequency
class is computed from the elapsed time since the PREVIOUS timestamp: no prior access gives
`new`, under 1 hour (3600000 ms) `very-high`, under 24 hours `high`, under 168 hours `medium`,
otherwise `low`. -/
theorem recordAccess_updates_count_time_frequency (entityName : String) (now : Int)
    (st : L0State) :
    (L0.recordAccess entityName now st).accessPatterns.lookup entityName =
      some ⟨((st.accessPatterns.lookup entityName).getD AccessRecord.dflt).count + 1, some now,
        match ((st.accessPatterns.lookup entityName).getD AccessRecord.dflt).lastAccess with
        | none => "new"
        | some prev =>
          if now - prev < 3600000 then "very-high"
          else if now - prev < 86400000 then "high"
          else if now - prev < 604800000 then "medium"
          else "low"⟩ := by
  simp only [L0.recordAccess, lookup_mset_self, calculateAccessFrequency]

/-- Helper: `updateMetrics` always completes exactly one request, whatever the success flag,
and touches neither the attempt counter, the entity cache nor the connection flag. -/
theorem updateMetrics_completed (responseTime : ℚ) (success : Bool) (st : L1State) :
    L1.completed (L1.updateMetrics responseTime success st) = L1.completed st + 1 ∧
    (L1.updateMetrics responseTime success st).totalRequests = st.totalRequests ∧
    (L1.updateMetrics responseTime success st).entityCache = st.entityCache ∧
    (L1.updateMetrics responseTime success st).connected = st.connected := by
  cases success <;> simp [L1.updateMetrics, L1.completed] <;> omega

/-- Claim C8: after every completed request — success or failure alike — the running average
obeys the incremental law `avg' = (avg * (n - 1) + latest) / n`, where `n` is the number of
completed requests (successes plus failures) including the one just finished. -/
theorem updateMetrics_running_average (responseTime : ℚ) (success : Bool) (st : L1State) :
    L1.completed (L1.updateMetrics responseTime success st) = L1.completed st + 1 ∧
    (L1.updateMetrics responseTime success st).averageResponseTime =
      (st.averageResponseTime *
          ((L1.completed (L1.updateMetrics responseTime success st) : ℚ) - 1) + responseTime) /
        (L1.completed (L1.updateMetrics responseTime success st) : ℚ) := by
  refine ⟨(updateMetrics_completed responseTime success st).1, ?_⟩
  cases success <;> simp [L1.updateMetrics, L1.completed]

/-- Claim C10: calling `getEntity` before `initialize()` has completed throws the
not-initialized error and leaves the entire component state — catalog, access tracker, bounded
cache, hit/miss counters and backing-store counters — unchanged. -/
theorem getEntity_before_init (entityName : String) (loadOutcome : Except CErr Entity)
    (responseTime : ℚ) (now : Int) (st : CortexState) (h : st.initialized = false) :
    Cortex.getEntity entityName loadOutcome responseTime now st =
      (.error .cortexNotInitialized, st) := by
  simp [Cortex.getEntity, h]

/-- Witness for claim C10 at the freshly constructed (never initialized) system. -/
theorem getEntity_before_init_witness :
    (Cortex.fresh 100).initialized = false ∧
    Cortex.getEntity "Alpha" (.ok alphaEntity) 0 0 (Cortex.fresh 100) =
      (.error .cortexNotInitialized, Cortex.fresh 100) :=
  ⟨rfl, getEntity_before_init "Alpha" (.ok alphaEntity) 0 0 (Cortex.fresh 100) rfl⟩

/-- Claim C4: when the name is absent from the Reference Catalog, `getEntity` fails with the
entity-not-found error; the only state change is the Access Tracker's `recordAccess` — the
bounded cache, the hit/miss counters and the whole Backing Store Client state (in particular
its request counters) are untouched. -/
theorem getEntity_absent_name (entityName : String) (loadOutcome : Except CErr Entity)
    (responseTime : ℚ) (now : Int) (st : CortexState)
    (hinit : st.initialized = true) (hl0 : st.l0.initialized = true)
    (habs : st.l0.lightweightReferences.lookup entityName = none) :
    Cortex.getEntity entityName loadOutcome responseTime now st =
      (.error (.entityNotFound entityName),
        { st with l0 := L0.recordAccess entityName now st.l0 }) := by
  simp [Cortex.getEntity, L0.getLightweightReference, hinit, hl0, L0.recordAccess, habs]

/-- Witness for claim C4: reading a never-written name on the freshly initialized system. -/
theorem getEntity_absent_name_witness :
    stInit.initialized = true ∧ stInit.l0.initialized = true ∧
    stInit.l0.lightweightReferences.lookup "Ghost" = none ∧
    Cortex.getEntity "Ghost" (.ok alphaEntity) 0 7 stInit =
      (.error (.entityNotFound "Ghost"),
        { stInit with l0 := L0.recordAccess "Ghost" 7 stInit.l0 }) :=
  ⟨rfl, rfl, by decide,
    getEntity_absent_name "Ghost" (.ok alphaEntity) 0 7 stInit rfl rfl (by decide)⟩

/-- Counterexample for claim C2: on a fresh state with no durable reference store, a successful
`initialize()` does NOT leave the catalog empty — `loadLightweightReferences` seeds the built-in
demonstration reference, so the reference count is 1, not 0. -/
theorem initProtocol_not_empty :
    (L0.initProtocol 0 L0.fresh).initialized = true ∧
    (L0.initProtocol 0 L0.fresh).lightweightReferences.length ≠ 0 := by
  constructor
  · rfl
  · decide

/-- Claim C2 (amended): with no durable reference store, a successful `initialize()` leaves the
catalog holding exactly one reference — the built-in demonstration sample reference seeded by
`loadLightweightReferences` — rather than zero. -/
theorem initProtocol_one_reference (now : Int) :
    (L0.initProtocol now L0.fresh).initialized = true ∧
    (L0.initProtocol now L0.fresh).lightweightReferences.length = 1 ∧
    (L0.initProtocol now L0.fresh).lightweightReferences.lookup "Cortex_Access_Protocol_v3_0" =
      some (sampleReference now) := by
  refine ⟨rfl, ?_, ?_⟩
  · simp [L0.initProtocol, L0.fresh, mset]
  · exact lookup_mset_self _ _ _

/-- Counterexample for claim C6: the entity whose observations are
`["see T3 note", "see T1 note"]` HAS an observation containing `T1`, yet `qualityTag` is `T3`
(the first marker-bearing observation wins, and it carries `T3`); moreover within one
observation the markers are tested in the priority order `T1`, `T2`, `T3`, not by position:
`["a T2 b T1"]` yields `T1` although `T2` occurs first in the text. -/
theorem qualityTag_counterexample :
    includesStr "see T1 note" "T1" = true ∧
    extractEvidenceQuality ⟨"E", "Fact", ["see T3 note", "see T1 note"], []⟩ = "T3" ∧
    ("T3" : String) ≠ "T1" ∧
    extractEvidenceQuality ⟨"E2", "Fact", ["a T2 b T1"], []⟩ = "T1" := by
  refine ⟨by decide, by decide, by decide, by decide⟩

/-- Claim C6 (amended): scanning the observations in order, the FIRST observation containing
any tier marker decides `qualityTag`, with markers tested in the priority order `T1`, `T2`,
`T3` inside that observation.  In particular, when every observation before `o` is marker-free
and `o` contains `T1`, the result is `T1` — even if a later observation contains `T2`; and when
no observation contains a marker the result defaults to `T3`. -/
theorem qualityTag_first_marked_observation :
    (∀ (nm ty : String) (md : List (String × String)) (pre : List String) (o : String)
        (post : List String), (∀ p ∈ pre, tierOf p = none) → includesStr o "T1" = true →
        extractEvidenceQuality ⟨nm, ty, pre ++ o :: post, md⟩ = "T1") ∧
    (∀ (nm ty : String) (md : List (String × String)) (obs : List String),
        (∀ p ∈ obs, tierOf p = none) → extractEvidenceQuality ⟨nm, ty, obs, md⟩ = "T3") := by
  constructor
  · intro nm ty md pre o post hpre h1
    unfold extractEvidenceQuality
    induction pre with
    | nil => simp [evidenceScan, h1]
    | cons p ps ih =>
      have hp := (tierOf_none_iff p).mp (hpre p (by simp))
      have hps : ∀ q ∈ ps, tierOf q = none := fun q hq => hpre q (by simp [hq])
      simp only [List.cons_append, evidenceScan, hp.1, hp.2.1, hp.2.2]
      exact ih hps
  · intro nm ty md obs hobs
    unfold extractEvidenceQuality
    induction obs with
    | nil => rfl
    | cons p ps ih =>
      have hp := (tierOf_none_iff p).mp (hobs p (by simp))
      have hps : ∀ q ∈ ps, tierOf q = none := fun q hq => hobs q (by simp [hq])
      simp only [evidenceScan, hp.1, hp.2.1, hp.2.2]
      exact ih hps

/-- Witness for the amended claim C6: a marker-free observation followed by a `T1` observation
and then a `T2` observation yields `T1`; a fully marker-free entity yields `T3`. -/
theorem qualityTag_first_marked_observation_witness :
    ((∀ p ∈ ["plain note"], tierOf p = none) ∧ includesStr "has T1 marker" "T1" = true ∧
      extractEvidenceQuality ⟨"E", "Fact", ["plain note", "has T1 marker", "later T2"], []⟩ =
        "T1") ∧
    ((∀ p ∈ ["alpha", "beta"], tierOf p = none) ∧
      extractEvidenceQuality ⟨"E", "Fact", ["alpha", "beta"], []⟩ = "T3") :=
  ⟨⟨by decide, by decide,
      qualityTag_first_marked_observation.1 "E" "Fact" [] ["plain note"] "has T1 marker"
        ["later T2"] (by decide) (by decide)⟩,
    ⟨by decide,
      qualityTag_first_marked_observation.2 "E" "Fact" [] ["alpha", "beta"] (by decide)⟩⟩

/-- Helper: a failing `L1.getEntity` never writes the internal per-locator entity cache. -/
theorem getEntity_l1_error_entityCache {fileReference : String}
    {loadOutcome : Except CErr Entity} {responseTime : ℚ} {st : L1State} {err : CErr}
    {l1' : L1State}
    (h : L1.getEntity fileReference loadOutcome responseTime st = (.error err, l1')) :
    l1'.entityCache = st.entityCache := by
  unfold L1.getEntity at h
  split at h
  · injection h with h1 h2
    rw [← h2]
  · dsimp only at h
    repeat' split at h
    all_goals injection h with h1 h2
    all_goals first
      | exact Except.noConfusion h1
      | (rw [← h2]; exact (updateMetrics_completed _ _ _).2.2.1)

/-- Counterexample for claim C5: a concrete read that misses the cache and whose backing-store
fetch fails DOES change the Reference Catalog — the resolved reference's access statistics are
updated before the fetch (`accessCount` goes from 0 to 1), so the catalog is not left unchanged
by the failed read.  The error itself is propagated, as the claim says. -/
theorem failed_read_mutates_catalog :
    (Cortex.getEntity "Cortex_Access_Protocol_v3_0" (.error (.external "storage")) 0 5
        stInit).1 = .error (.l1LoadFailed (.external "storage")) ∧
    ((Cortex.getEntity "Cortex_Access_Protocol_v3_0" (.error (.external "storage")) 0 5
        stInit).2.l0.lightweightReferences.lookup "Cortex_Access_Protocol_v3_0").map
      (fun r => r.accessCount) = some 1 ∧
    (stInit.l0.lightweightReferences.lookup "Cortex_Access_Protocol_v3_0").map
      (fun r => r.accessCount) = some 0 ∧
    (Cortex.getEntity "Cortex_Access_Protocol_v3_0" (.error (.external "storage")) 0 5
        stInit).2.l0.lightweightReferences ≠ stInit.l0.lightweightReferences := by
  refine ⟨by decide, by decide, by decide, by decide⟩

/-- Claim C5 (amended): on a cache-missing read whose backing-store fetch fails (any error:
not-found, validation, storage), `getEntity` propagates the error unchanged and performs no
speculative write: the Bounded Cache, the hit/miss counters and the Backing Store Client's
internal entity cache are all left unchanged, and the only Catalog change is the routine
reference-resolution side effect (access statistics) performed before the fetch — the
post-state is exactly the pre-state with the L0 resolution step applied and the failing
client's metric state. -/
theorem getEntity_fetch_failure (entityName : String) (loadOutcome : Except CErr Entity)
    (responseTime : ℚ) (now : Int) (st : CortexState) (ref : LightweightRef)
    (err : CErr) (l1' : L1State)
    (hinit : st.initialized = true) (hl0 : st.l0.initialized = true)
    (href : st.l0.lightweightReferences.lookup entityName = some ref)
    (hmiss : st.cache.has ("entity:" ++ entityName) = false)
    (hfail : L1.getEntity ref.fileReference loadOutcome responseTime st.l1 =
      (.error err, l1')) :
    Cortex.getEntity entityName loadOutcome responseTime now st =
      (.error err,
        { st with l0 := (L0.getLightweightReference entityName now st.l0).2, l1 := l1' }) ∧
    l1'.entityCache = st.l1.entityCache := by
  refine ⟨?_, getEntity_l1_error_entityCache hfail⟩
  simp only [Cortex.getEntity, L0.getLightweightReference, L0.recordAccess, hinit, hl0, href,
    hmiss, hfail, LightweightRef.toView, Bool.not_true, Bool.false_eq_true, if_false,
    lookup_mset_self]


/-- Witness for the amended claim C5 at the freshly initialized system, with a storage failure
reported by the external collaborator. -/
theorem getEntity_fetch_failure_witness :
    (stInit.initialized = true ∧ stInit.l0.initialized = true ∧
      stInit.l0.lightweightReferences.lookup "Cortex_Access_Protocol_v3_0" =
        some (sampleReference 0) ∧
      stInit.cache.has ("entity:" ++ "Cortex_Access_Protocol_v3_0") = false ∧
      L1.getEntity (sampleReference 0).fileReference (.error (.external "storage")) 0
          stInit.l1 =
        (.error (.l1LoadFailed (.external "storage")), ⟨true, [], 1, 0, 1, 0, some 0⟩)) ∧
    Cortex.getEntity "Cortex_Access_Protocol_v3_0" (.error (.external "storage")) 0 5 stInit =
      (.error (.l1LoadFailed (.external "storage")),
        { stInit with
            l0 := (L0.getLightweightReference "Cortex_Access_Protocol_v3_0" 5 stInit.l0).2,
            l1 := ⟨true, [], 1, 0, 1, 0, some 0⟩ }) ∧
    (⟨true, [], 1, 0, 1, 0, some 0⟩ : L1State).entityCache = stInit.l1.entityCache := by
  have hfail : L1.getEntity (sampleReference 0).fileReference (.error (.external "storage")) 0
      stInit.l1 =
      (.error (.l1LoadFailed (.external "storage")), ⟨true, [], 1, 0, 1, 0, some 0⟩) := by
    simp [stInit, Cortex.initSystem, Cortex.fresh, L1.fresh, L1.connect, L1.getEntity,
      L1.updateMetrics, sampleReference]
  exact ⟨⟨rfl, rfl, by decide, by decide, hfail⟩,
    getEntity_fetch_failure "Cortex_Access_Protocol_v3_0" (.error (.external "storage")) 0 5
      stInit (sampleReference 0) (.l1LoadFailed (.external "storage"))
      ⟨true, [], 1, 0, 1, 0, some 0⟩ rfl rfl (by decide) (by decide) hfail⟩

/-- A cache whose most-recently-used entry is `(k, v)` answers `get k` with `v`, promoting it
in place. -/
theorem LRUCache.get_of_head {α : Type} {c : LRUCache α} {k : String} {v : α}
    {t : List (String × α)} (h : c.entries = (k, v) :: t) :
    LRUCache.get c k = (some v, ⟨c.capacity, (k, v) :: t.filter (fun p => p.1 != k)⟩) := by
  simp [LRUCache.get, h, List.lookup_cons]

/-- Claim C1: an entity of valid shape successfully written through the write path (persist to
the backing store, create the catalog reference, insert into the bounded cache) and then read
back by `getEntity` under the same name — with a positive cache capacity, so the fresh entry
was not evicted — yields a value equal to the entity written, whatever the backing collaborator
would answer (the read is served from the bounded cache). -/
theorem written_then_read (st : CortexState) (entityName : String) (e : Entity)
    (storeRt readRt : ℚ) (t1 t2 : Int) (loadOutcome : Except CErr Entity)
    (hinit : st.initialized = true) (hl0 : st.l0.initialized = true)
    (hl1 : st.l1.connected = true) (hvalid : validateEntitySchema e = .ok ())
    (hcap : 1 ≤ st.cache.capacity) :
    (∃ res, (Cortex.putEntity entityName e (.ok ()) storeRt t1 st).1 = .ok res) ∧
    (Cortex.getEntity entityName loadOutcome readRt t2
        (Cortex.putEntity entityName e (.ok ()) storeRt t1 st).2).1 = .ok e := by
  obtain ⟨t, ht⟩ := LRUCache.set_head st.cache ("entity:" ++ entityName) e hcap
  have hhas := LRUCache.has_of_head ht
  have hget := LRUCache.get_of_head ht
  constructor
  · refine ⟨⟨generateFileReference entityName,
      (jsonOfEntity (processEntityForStorage e t1)).length,
      calculateCompressionRatio e (processEntityForStorage e t1), storeRt⟩, ?_⟩
    simp [Cortex.putEntity, L1.storeEntity, hl1, hvalid, L0.createLightweightReference, hl0]
  · simp [Cortex.putEntity, L1.storeEntity, hl1, hvalid, L0.createLightweightReference, hl0,
      Cortex.getEntity, hinit, L0.getLightweightReference, L0.recordAccess, lookup_mset_self,
      hhas, hget]

/-- Witness for claim C1: write `Alpha` on the freshly initialized system and read it back;
the backing collaborator is even set to fail the fetch, showing the read is a cache hit. -/
theorem written_then_read_witness :
    (stInit.initialized = true ∧ stInit.l0.initialized = true ∧
      stInit.l1.connected = true ∧ validateEntitySchema alphaEntity = .ok () ∧
      1 ≤ stInit.cache.capacity) ∧
    (∃ res, (Cortex.putEntity "Alpha" alphaEntity (.ok ()) 0 1 stInit).1 = .ok res) ∧
    (Cortex.getEntity "Alpha" (.error (.external "unreachable")) 0 2
        (Cortex.putEntity "Alpha" alphaEntity (.ok ()) 0 1 stInit).2).1 = .ok alphaEntity :=
  ⟨⟨rfl, rfl, rfl, by decide, by decide⟩,
    written_then_read stInit "Alpha" alphaEntity 0 0 1 2 (.error (.external "unreachable"))
      rfl rfl rfl (by decide) (by decide)⟩

/-- Removing the looked-up key from an association list strictly shrinks it. -/
theorem length_filter_ne_lt {α : Type} {l : List (String × α)} {k : String} {v : α}
    (h : l.lookup k = some v) : (l.filter (fun p => p.1 != k)).length < l.length := by
  induction l with
  | nil => simp [List.lookup] at h
  | cons a t ih =>
    obtain ⟨ka, va⟩ := a
    by_cases hk : k = ka
    · subst hk
      have : (k != k) = false := by simp
      simp only [List.filter_cons, this, Bool.false_eq_true, if_false]
      have := List.length_filter_le (fun p => p.1 != k) t
      simp only [List.length_cons]
      omega
    · rw [List.lookup_cons] at h
      have hbeq : (k == ka) = false := by simp [hk]
      rw [hbeq] at h
      have hkept : (ka != k) = true := by simp [Ne.symm hk]
      simp only [List.filter_cons, hkept, if_true, List.length_cons]
      have := ih h
      omega

/-- No cache operation changes the capacity fixed at construction. -/
theorem stepCache_capacity {α : Type} (c : LRUCache α) (op : CacheOp α) :
    (stepCache c op).capacity = c.capacity := by
  cases op with
  | ohas k => rfl
  | oset k v => rfl
  | oget k =>
    simp only [stepCache, LRUCache.get]
    cases hl : c.entries.lookup k <;> simp

/-- One cache operation preserves the bound `size ≤ capacity`. -/
theorem stepCache_length_le {α : Type} (c : LRUCache α) (op : CacheOp α)
    (h : c.entries.length ≤ c.capacity) :
    (stepCache c op).entries.length ≤ (stepCache c op).capacity := by
  cases op with
  | ohas k => exact h
  | oget k =>
    simp only [stepCache, LRUCache.get]
    cases hl : c.entries.lookup k with
    | none => simpa using h
    | some v =>
      have := length_filter_ne_lt hl
      simp only [List.length_cons]
      omega
  | oset k v =>
    simp only [stepCache, LRUCache.set]
    have hf := List.length_filter_le (fun p => p.1 != k) c.entries
    by_cases hc : c.capacity < ((k, v) :: c.entries.filter (fun p => p.1 != k)).length
    · rw [if_pos hc]
      simp only [List.length_dropLast, List.length_cons]
      simp only [List.length_cons] at hc
      omega
    · rw [if_neg hc]
      simp only [List.length_cons] at hc ⊢
      omega

/-- A sequence of cache operations preserves the capacity. -/
theorem foldl_stepCache_capacity {α : Type} (ops : List (CacheOp α)) (c : LRUCache α) :
    (ops.foldl stepCache c).capacity = c.capacity := by
  induction ops generalizing c with
  | nil => rfl
  | cons op rest ih => rw [List.foldl_cons, ih, stepCache_capacity]

/-- A sequence of cache operations preserves the bound `size ≤ capacity`. -/
theorem foldl_stepCache_bounded {α : Type} (ops : List (CacheOp α)) (c : LRUCache α)
    (h : c.entries.length ≤ c.capacity) :
    (ops.foldl stepCache c).entries.length ≤ (ops.foldl stepCache c).capacity := by
  induction ops generalizing c with
  | nil => exact h
  | cons op rest ih => exact ih _ (stepCache_length_le c op h)

/-- A sequence of insertions preserves the capacity. -/
theorem foldl_set_capacity {α : Type} (v : String → α) (xs : List String) (c : LRUCache α) :
    (xs.foldl (fun c key => LRUCache.set c key (v key)) c).capacity = c.capacity := by
  induction xs generalizing c with
  | nil => rfl
  | cons x t ih => rw [List.foldl_cons, ih]; rfl

/-- Representation of the cache after inserting distinct keys into an empty cache: the keys,
most-recently-used first, are the reversed insertion order truncated to the capacity. -/
theorem foldl_set_fresh_keys {α : Type} (cap : Nat) (v : String → α) (xs : List String)
    (hnd : xs.Nodup) :
    ((xs.foldl (fun c key => LRUCache.set c key (v key))
        (LRUCache.empty α cap)).entries.map Prod.fst) = xs.reverse.take cap := by
  induction xs using List.reverseRecOn with
  | nil => simp [LRUCache.empty]
  | append_singleton xs y ih =>
    have hxs : xs.Nodup := ((List.nodup_append).mp hnd).1
    have hy : y ∉ xs := by
      have hd := ((List.nodup_append).mp hnd).2.2
      intro hmem
      exact hd hmem (by simp)
    rw [List.foldl_append]
    have hkeys := ih hxs
    have hcap : (xs.foldl (fun c key => LRUCache.set c key (v key))
        (LRUCache.empty α cap)).capacity = cap := foldl_set_capacity v xs _
    set c := xs.foldl (fun c key => LRUCache.set c key (v key)) (LRUCache.empty α cap)
    have hnotin : ∀ p ∈ c.entries, (p.1 != y) = true := by
      intro p hp
      have hmm : p.1 ∈ c.entries.map Prod.fst := List.mem_map_of_mem Prod.fst hp
      rw [hkeys] at hmm
      have hmx : p.1 ∈ xs := (List.mem_reverse).mp (List.take_subset _ _ hmm)
      have hne : p.1 ≠ y := fun hEq => hy (hEq ▸ hmx)
      simpa using hne
    have hfilter : c.entries.filter (fun p => p.1 != y) = c.entries :=
      List.filter_eq_self.mpr hnotin
    have hlen : c.entries.length = min cap xs.length := by
      have hml := congrArg List.length hkeys
      simpa [List.length_take] using hml
    have hsetdef : (LRUCache.set c y (v y)).entries =
        if c.capacity < ((y, v y) :: c.entries.filter (fun p => p.1 != y)).length
        then ((y, v y) :: c.entries.filter (fun p => p.1 != y)).dropLast
        else (y, v y) :: c.entries.filter (fun p => p.1 != y) := rfl
    rw [List.foldl_cons, List.foldl_nil]
    rw [hsetdef, hfilter, hcap]
    have hrev : (xs ++ [y]).reverse = y :: xs.reverse := by simp
    by_cases hc : cap ≤ xs.length
    · have hcond : cap < ((y, v y) :: c.entries).length := by
        simp only [List.length_cons, hlen]
        omega
      rw [if_pos hcond, hrev]
      rw [List.map_dropLast, List.map_cons, hkeys]
      rw [List.dropLast_eq_take]
      have hlt : (y :: List.take cap xs.reverse).length - 1 = cap := by
        simp only [List.length_cons, List.length_take, List.length_reverse]
        omega
      rw [hlt]
      cases cap with
      | zero => simp
      | succ m =>
        rw [List.take_succ_cons, List.take_succ_cons, List.take_take,
          Nat.min_eq_left (Nat.le_succ m)]
    · have hcond : ¬ cap < ((y, v y) :: c.entries).length := by
        simp only [List.length_cons, hlen]
        omega
      rw [if_neg hcond, hrev]
      rw [List.map_cons, hkeys]
      have h1 : xs.reverse.length ≤ cap := by
        simp only [List.length_reverse]
        omega
      have h2 : (y :: xs.reverse).length ≤ cap := by
        simp only [List.length_cons, List.length_reverse]
        omega
      rw [List.take_of_length_le h1, List.take_of_length_le h2]

/-- Claim C3: the Bounded Cache never holds more than its construction-time capacity `C`
entries, whatever sequence of `get`/`set`/`has` operations runs against it; and after
inserting `C + 1` distinct keys in order into an empty cache, the first-inserted key has been
evicted, so looking it up is a miss. -/
theorem bounded_cache_never_exceeds_capacity :
    (∀ (cap : Nat) (ops : List (CacheOp Entity)),
      (ops.foldl stepCache (LRUCache.empty Entity cap)).entries.length ≤ cap) ∧
    (∀ (cap : Nat) (k : String) (ks : List String) (v : String → Entity),
      (k :: ks).Nodup → ks.length = cap →
      ((k :: ks).foldl (fun c key => LRUCache.set c key (v key))
          (LRUCache.empty Entity cap)).has k = false) := by
  constructor
  · intro cap ops
    have h := foldl_stepCache_bounded ops (LRUCache.empty Entity cap)
      (by simp [LRUCache.empty])
    rwa [foldl_stepCache_capacity] at h
  · intro cap k ks v hnd hlen
    have hkeys := foldl_set_fresh_keys cap v (k :: ks) hnd
    have hrev : (k :: ks).reverse = ks.reverse ++ [k] := by simp
    rw [hrev] at hkeys
    have htake : (ks.reverse ++ [k]).take cap = ks.reverse :=
      List.take_left' (by simp [hlen])
    rw [htake] at hkeys
    rw [Bool.eq_false_iff]
    intro hany
    simp only [LRUCache.has, List.any_eq_true, beq_iff_eq] at hany
    obtain ⟨p, hp, hpk⟩ := hany
    have hmm := List.mem_map_of_mem Prod.fst hp
    rw [hkeys, hpk] at hmm
    exact (List.nodup_cons.mp hnd).1 ((List.mem_reverse).mp hmm)

/-- Witness for claim C3: capacity 2, inserting the three distinct keys `a`, `b`, `c` evicts
`a`. -/
theorem bounded_cache_witness_check :
    (["a", "b", "c"] : List String).Nodup ∧ (["b", "c"] : List String).length = 2 ∧
    ((["a", "b", "c"]).foldl
        (fun c key => LRUCache.set c key ((fun _ => alphaEntity) key))
        (LRUCache.empty Entity 2)).has "a" = false :=
  ⟨by decide, by decide,
    bounded_cache_never_exceeds_capacity.2 2 "a" ["b", "c"] (fun _ => alphaEntity)
      (by decide) (by decide)⟩

/-- A fetch served from the internal per-locator cache counts one attempt and completes no
request. -/
theorem stepOp_hit_counters (st : L1State) (op : L1Op)
    (h : L1.servedFromCache st op = true) :
    (L1.stepOp st op).totalRequests = st.totalRequests + 1 ∧
    L1.completed (L1.stepOp st op) = L1.completed st := by
  cases op with
  | oconnect ct now => simp [L1.servedFromCache] at h
  | ostore n e oc rt now => simp [L1.servedFromCache] at h
  | ofetch f oc rt =>
    simp only [L1.servedFromCache, Bool.and_eq_true] at h
    obtain ⟨hconn, hsome⟩ := h
    obtain ⟨e, he⟩ := Option.isSome_iff_exists.mp hsome
    simp [L1.stepOp, L1.getEntity, hconn, he, L1.completed]

/-- Any operation not served from the internal cache bumps the attempt counter and the
completed-request counter by the same amount (one for a completed fetch/store, zero for a
connect or a rejected call). -/
theorem stepOp_nohit_counters (st : L1State) (op : L1Op)
    (h : L1.servedFromCache st op = false) :
    ∃ d, (L1.stepOp st op).totalRequests = st.totalRequests + d ∧
      L1.completed (L1.stepOp st op) = L1.completed st + d := by
  cases op with
  | oconnect ct now => exact ⟨0, by simp [L1.stepOp, L1.connect], by simp [L1.stepOp, L1.connect, L1.completed]⟩
  | ofetch f oc rt =>
    by_cases hconn : st.connected
    · simp only [L1.servedFromCache, hconn, Bool.true_and] at h
      have hnone : st.entityCache.lookup f = none := Option.not_isSome_iff_eq_none.mp (by simp [h])
      refine ⟨1, ?_⟩
      cases oc with
      | ok entity =>
        cases hv : validateEntitySchema entity with
        | ok u =>
          simp [L1.stepOp, L1.getEntity, hconn, hnone, hv, L1.completed,
            L1.updateMetrics]; omega
        | error er =>
          simp [L1.stepOp, L1.getEntity, hconn, hnone, hv, L1.completed,
            L1.updateMetrics]; omega
      | error er =>
        simp [L1.stepOp, L1.getEntity, hconn, hnone, L1.completed,
          L1.updateMetrics]; omega
    · refine ⟨0, ?_⟩
      have hc : st.connected = false := by simpa using hconn
      simp [L1.stepOp, L1.getEntity, hc]
  | ostore n e oc rt now =>
    by_cases hconn : st.connected
    · refine ⟨1, ?_⟩
      cases hv : validateEntitySchema e with
      | ok u =>
        cases oc with
        | ok u2 => simp [L1.stepOp, L1.storeEntity, hconn, hv, L1.completed, L1.updateMetrics]; omega
        | error er => simp [L1.stepOp, L1.storeEntity, hconn, hv, L1.completed, L1.updateMetrics]; omega
      | error er => simp [L1.stepOp, L1.storeEntity, hconn, hv, L1.completed, L1.updateMetrics]; omega
    · refine ⟨0, ?_⟩
      have hc : st.connected = false := by simpa using hconn
      simp [L1.stepOp, L1.storeEntity, hc]

/-- One operation preserves `completed ≤ totalRequests`. -/
theorem stepOp_le (st : L1State) (op : L1Op) (h : L1.completed st ≤ st.totalRequests) :
    L1.completed (L1.stepOp st op) ≤ (L1.stepOp st op).totalRequests := by
  by_cases hh : L1.servedFromCache st op = true
  · obtain ⟨h1, h2⟩ := stepOp_hit_counters st op hh
    omega
  · obtain ⟨d, h1, h2⟩ := stepOp_nohit_counters st op (by simpa using hh)
    omega

/-- One operation preserves `completed < totalRequests`. -/
theorem stepOp_lt (st : L1State) (op : L1Op) (h : L1.completed st < st.totalRequests) :
    L1.completed (L1.stepOp st op) < (L1.stepOp st op).totalRequests := by
  by_cases hh : L1.servedFromCache st op = true
  · obtain ⟨h1, h2⟩ := stepOp_hit_counters st op hh
    omega
  · obtain ⟨d, h1, h2⟩ := stepOp_nohit_counters st op (by simpa using hh)
    omega

/-- A sequence of operations preserves `completed ≤ totalRequests`. -/
theorem foldl_stepOp_le (ops : List L1Op) (st : L1State)
    (h : L1.completed st ≤ st.totalRequests) :
    L1.completed (ops.foldl L1.stepOp st) ≤ (ops.foldl L1.stepOp st).totalRequests := by
  induction ops generalizing st with
  | nil => exact h
  | cons op rest ih => exact ih _ (stepOp_le st op h)

/-- A sequence of operations preserves `completed < totalRequests`. -/
theorem foldl_stepOp_lt (ops : List L1Op) (st : L1State)
    (h : L1.completed st < st.totalRequests) :
    L1.completed (ops.foldl L1.stepOp st) < (ops.foldl L1.stepOp st).totalRequests := by
  induction ops generalizing st with
  | nil => exact h
  | cons op rest ih => exact ih _ (stepOp_lt st op h)

/-- Claim C9: over every operation sequence from the fresh client, `totalRequests` is at least
`successfulRequests + failedRequests`, and the inequality is strict as soon as some fetch in
the sequence was served from the internal per-locator cache (such a request counts an attempt
but neither a success nor a failure). -/
theorem backing_store_counter_invariant :
    (∀ ops : List L1Op,
      L1.completed (ops.foldl L1.stepOp L1.fresh) ≤
        (ops.foldl L1.stepOp L1.fresh).totalRequests) ∧
    (∀ (ops1 : List L1Op) (op : L1Op) (ops2 : List L1Op),
      L1.servedFromCache (ops1.foldl L1.stepOp L1.fresh) op = true →
      L1.completed ((ops1 ++ op :: ops2).foldl L1.stepOp L1.fresh) <
        ((ops1 ++ op :: ops2).foldl L1.stepOp L1.fresh).totalRequests) := by
  have h0 : L1.completed L1.fresh ≤ L1.fresh.totalRequests := by
    simp [L1.fresh, L1.completed]
  constructor
  · intro ops
    exact foldl_stepOp_le ops L1.fresh h0
  · intro ops1 op ops2 hhit
    rw [List.foldl_append, List.foldl_cons]
    apply foldl_stepOp_lt
    obtain ⟨h1, h2⟩ := stepOp_hit_counters _ op hhit
    have hle := foldl_stepOp_le ops1 L1.fresh h0
    omega

/-- Witness for claim C9: connect, store `A`, then fetch the stored locator — the fetch is
served from the internal cache and leaves `completed = 1 < 2 = totalRequests`. -/
theorem backing_store_counter_invariant_witness :
    L1.servedFromCache
        (([L1Op.oconnect 0 0, L1Op.ostore "A" alphaEntity (.ok ()) 0 0]).foldl L1.stepOp
          L1.fresh)
        (L1Op.ofetch "cortex/entities/a.json" (.ok alphaEntity) 0) = true ∧
    L1.completed
        (([L1Op.oconnect 0 0, L1Op.ostore "A" alphaEntity (.ok ()) 0 0,
            L1Op.ofetch "cortex/entities/a.json" (.ok alphaEntity) 0]).foldl L1.stepOp
          L1.fresh) <
      (([L1Op.oconnect 0 0, L1Op.ostore "A" alphaEntity (.ok ()) 0 0,
          L1Op.ofetch "cortex/entities/a.json" (.ok alphaEntity) 0]).foldl L1.stepOp
        L1.fresh).totalRequests :=
  ⟨by decide,
    backing_store_counter_invariant.2
      [L1Op.oconnect 0 0, L1Op.ostore "A" alphaEntity (.ok ()) 0 0]
      (L1Op.ofetch "cortex/entities/a.json" (.ok alphaEntity) 0) [] (by decide)⟩
